/-
Verification development for the WIDE-EYE dispatcher core.

The Python sources under `dispatcher/` are shallowly embedded: Python dicts
become insertion-ordered association lists, timestamps become integers
(`time.time()` and protobuf timestamps are passed in explicitly as `now` /
`timestamp` parameters), and fallible code returns `Except`/an explicit
outcome type.  Definitions follow the structure of the corresponding Python
functions; each embedded definition cites the file it comes from.
-/
import Mathlib

set_option maxHeartbeats 1000000

/-! ## Association-list model of Python `dict`

Python dicts preserve insertion order; assignment to an existing key keeps
its position, assignment to a fresh key appends. -/

/-- `d[k]` lookup returning `none` when the key is absent. -/
def dget {α : Type} : List (String × α) → String → Option α
  | [], _ => none
  | (a, b) :: rest, k => if a = k then some b else dget rest k

/-- `d[k] = v`: replace in place if `k` is present, else append. -/
def dset {α : Type} : List (String × α) → String → α → List (String × α)
  | [], k, v => [(k, v)]
  | (a, b) :: rest, k, v =>
    if a = k then (k, v) :: rest else (a, b) :: dset rest k v

/-- Apply `f` to the value stored at the first occurrence of `k`
(no-op when `k` is absent). -/
def dmodify {α : Type} : List (String × α) → String → (α → α) → List (String × α)
  | [], _, _ => []
  | (a, b) :: rest, k, f =>
    if a = k then (a, f b) :: rest else (a, b) :: dmodify rest k f

/-- The keys of the dict, in insertion order. -/
def dkeys {α : Type} (l : List (String × α)) : List String :=
  l.map Prod.fst

@[simp] theorem dget_nil {α : Type} (k : String) : dget ([] : List (String × α)) k = none := rfl

@[simp] theorem dget_cons {α : Type} (a : String) (b : α) (rest : List (String × α)) (k : String) :
    dget ((a, b) :: rest) k = if a = k then some b else dget rest k := rfl

@[simp] theorem dkeys_nil {α : Type} : dkeys ([] : List (String × α)) = [] := rfl

@[simp] theorem dkeys_cons {α : Type} (a : String) (b : α) (rest : List (String × α)) :
    dkeys ((a, b) :: rest) = a :: dkeys rest := rfl

theorem dget_dset_self {α : Type} (l : List (String × α)) (k : String) (v : α) :
    dget (dset l k v) k = some v := by
  induction l with
  | nil => simp [dset]
  | cons p rest ih =>
    obtain ⟨a, b⟩ := p
    by_cases h : a = k
    · simp [dset, h]
    · simp [dset, h, ih]

theorem dget_dset_ne {α : Type} (l : List (String × α)) (k k' : String) (v : α)
    (h : k' ≠ k) : dget (dset l k v) k' = dget l k' := by
  have hkk : ¬ k = k' := fun hk => h hk.symm
  induction l with
  | nil => simp [dset, hkk]
  | cons p rest ih =>
    obtain ⟨a, b⟩ := p
    by_cases hp : a = k
    · subst hp
      simp [dset, hkk]
    · simp [dset, hp, ih]

theorem dkeys_dset_mem {α : Type} (l : List (String × α)) (k : String) (v : α)
    (h : k ∈ dkeys l) : dkeys (dset l k v) = dkeys l := by
  induction l with
  | nil => simp at h
  | cons p rest ih =>
    obtain ⟨a, b⟩ := p
    by_cases hp : a = k
    · simp [dset, hp]
    · have h' : k ∈ dkeys rest := by
        rcases (by simpa using h : k = a ∨ k ∈ dkeys rest) with h1 | h1
        · exact absurd h1.symm hp
        · exact h1
      simp [dset, hp, ih h']

theorem dkeys_dset_not_mem {α : Type} (l : List (String × α)) (k : String) (v : α)
    (h : k ∉ dkeys l) : dkeys (dset l k v) = dkeys l ++ [k] := by
  induction l with
  | nil => simp [dset]
  | cons p rest ih =>
    obtain ⟨a, b⟩ := p
    have hp : a ≠ k := by
      intro hk; exact h (by simp [hk])
    have h' : k ∉ dkeys rest := by
      intro hk; exact h (by simp [hk])
    simp [dset, hp, ih h']

theorem dget_none_iff {α : Type} (l : List (String × α)) (k : String) :
    dget l k = none ↔ k ∉ dkeys l := by
  induction l with
  | nil => simp
  | cons p rest ih =>
    obtain ⟨a, b⟩ := p
    by_cases hp : a = k
    · simp [hp]
    · have hka : ¬ k = a := fun hk => hp hk.symm
      simp [hp, ih, hka]

theorem dget_mem {α : Type} {l : List (String × α)} {k : String} {v : α}
    (h : dget l k = some v) : (k, v) ∈ l := by
  induction l with
  | nil => simp at h
  | cons p rest ih =>
    obtain ⟨a, b⟩ := p
    by_cases hp : a = k
    · subst hp
      simp at h
      simp [h]
    · simp [hp] at h
      simp [ih h]

theorem dget_of_mem_nodup {α : Type} {l : List (String × α)} {k : String} {v : α}
    (hmem : (k, v) ∈ l) (hnd : (dkeys l).Nodup) : dget l k = some v := by
  induction l with
  | nil => simp at hmem
  | cons p rest ih =>
    obtain ⟨a, b⟩ := p
    rcases List.mem_cons.mp hmem with h | h
    · obtain ⟨h1, h2⟩ := Prod.mk.injEq .. ▸ h.symm
      simp [h1, h2]
    · have hk : k ∈ dkeys rest := by
        simpa [dkeys] using List.mem_map_of_mem Prod.fst h
      have hp : a ≠ k := by
        intro hk'
        subst hk'
        simp at hnd
        exact hnd.1 hk
      have hnd' : (dkeys rest).Nodup := by
        simp at hnd
        exact hnd.2
      simp [hp, ih h hnd']

theorem dget_isSome_dset {α : Type} (l : List (String × α)) (k k' : String) (v : α)
    (h : (dget l k').isSome) : (dget (dset l k v) k').isSome := by
  by_cases hk : k' = k
  · subst hk; simp [dget_dset_self]
  · rwa [dget_dset_ne l k k' v hk]

theorem dkeys_dmodify {α : Type} (l : List (String × α)) (k : String) (f : α → α) :
    dkeys (dmodify l k f) = dkeys l := by
  induction l with
  | nil => rfl
  | cons p rest ih =>
    obtain ⟨a, b⟩ := p
    by_cases hp : a = k <;> simp [dmodify, hp, ih]

theorem dget_dmodify_self {α : Type} (l : List (String × α)) (k : String) (f : α → α) :
    dget (dmodify l k f) k = (dget l k).map f := by
  induction l with
  | nil => rfl
  | cons p rest ih =>
    obtain ⟨a, b⟩ := p
    by_cases hp : a = k
    · simp [dmodify, hp]
    · simp [dmodify, hp, ih]

theorem dget_dmodify_ne {α : Type} (l : List (String × α)) (k k' : String) (f : α → α)
    (h : k' ≠ k) : dget (dmodify l k f) k' = dget l k' := by
  induction l with
  | nil => rfl
  | cons p rest ih =>
    obtain ⟨a, b⟩ := p
    by_cases hp : a = k
    · subst hp
      have hne : ¬ a = k' := fun hk => h hk.symm
      simp [dmodify, hne]
    · simp [dmodify, hp, ih]

/-! ## Python `min` with a key function

`min(candidates, key=...)` iterates left to right and keeps the earliest
element on ties (replacement only on strict `<`). -/

/-- Left fold of Python `min(..., key=...)` starting from `best`. -/
def pyMinAux {α : Type} (key : α → Nat) (best : α) : List α → α
  | [] => best
  | y :: ys => pyMinAux key (if key y < key best then y else best) ys

/-- Python `min(l, key=...)`, `none` on the empty list. -/
def pyMin {α : Type} (key : α → Nat) : List α → Option α
  | [] => none
  | x :: xs => some (pyMinAux key x xs)

theorem pyMinAux_spec {α : Type} (key : α → Nat) (l : List α) (best : α) :
    (pyMinAux key best l = best ∨ pyMinAux key best l ∈ l) ∧
    key (pyMinAux key best l) ≤ key best ∧
    (∀ y ∈ l, key (pyMinAux key best l) ≤ key y) ∧
    ((best :: l).filter (fun x => key x = key (pyMinAux key best l))).head?
      = some (pyMinAux key best l) := by
  induction l generalizing best with
  | nil => simp [pyMinAux]
  | cons y ys ih =>
    by_cases hlt : key y < key best
    · have hstep : pyMinAux key best (y :: ys) = pyMinAux key y ys := by
        simp [pyMinAux, hlt]
      have ih' := ih y
      rw [hstep]
      refine ⟨?_, ?_, ?_, ?_⟩
      · rcases ih'.1 with h | h
        · right; simp [h]
        · right; simp; right; exact h
      · exact le_trans ih'.2.1 (le_of_lt hlt)
      · intro z hz
        rcases List.mem_cons.mp hz with h | h
        · subst h; exact ih'.2.1
        · exact ih'.2.2.1 z h
      · have hne : ¬ key best = key (pyMinAux key y ys) := by
          have := ih'.2.1
          omega
        simpa [List.filter, hne] using ih'.2.2.2
    · have hstep : pyMinAux key best (y :: ys) = pyMinAux key best ys := by
        simp [pyMinAux, hlt]
      have ih' := ih best
      rw [hstep]
      refine ⟨?_, ?_, ?_, ?_⟩
      · rcases ih'.1 with h | h
        · left; exact h
        · right; simp; right; exact h
      · exact ih'.2.1
      · intro z hz
        rcases List.mem_cons.mp hz with h | h
        · subst h; exact le_trans ih'.2.1 (not_lt.mp hlt)
        · exact ih'.2.2.1 z h
      · by_cases heq : key best = key (pyMinAux key best ys)
        · -- on ties the earlier `best` is kept, so the recursion returned `best`
          have h4 := ih'.2.2.2
          rw [List.filter_cons] at h4
          simp [heq] at h4
          have hbest : pyMinAux key best ys = best := by
            first
            | exact h4
            | exact h4.symm
          rw [hbest] at heq ⊢
          rw [List.filter_cons]
          simp
        · have hyne : ¬ key y = key (pyMinAux key best ys) := by
            have h1 : key (pyMinAux key best ys) ≤ key best := ih'.2.1
            have h2 : key best ≤ key y := not_lt.mp hlt
            intro h; omega
          have h4 := ih'.2.2.2
          rw [List.filter_cons] at h4
          simp [heq] at h4
          rw [List.filter_cons, List.filter_cons]
          simp [heq, hyne]
          exact h4

theorem pyMin_mem {α : Type} (key : α → Nat) (l : List α) (m : α)
    (h : pyMin key l = some m) : m ∈ l := by
  cases l with
  | nil => simp [pyMin] at h
  | cons x xs =>
    simp [pyMin] at h
    rcases (pyMinAux_spec key xs x).1 with h1 | h1
    · simp [← h, h1]
    · simp [← h]; right; exact h1

theorem pyMin_le {α : Type} (key : α → Nat) (l : List α) (m : α)
    (h : pyMin key l = some m) : ∀ y ∈ l, key m ≤ key y := by
  cases l with
  | nil => simp [pyMin] at h
  | cons x xs =>
    simp [pyMin] at h
    intro y hy
    rcases List.mem_cons.mp hy with h1 | h1
    · subst h1; rw [← h]; exact (pyMinAux_spec key xs y).2.1
    · rw [← h]; exact (pyMinAux_spec key xs x).2.2.1 y h1

theorem pyMin_first {α : Type} (key : α → Nat) (l : List α) (m : α)
    (h : pyMin key l = some m) :
    (l.filter (fun x => key x = key m)).head? = some m := by
  cases l with
  | nil => simp [pyMin] at h
  | cons x xs =>
    simp [pyMin] at h
    rw [← h]
    exact (pyMinAux_spec key xs x).2.2.2

/-! ## `dispatcher/collector_manager.py`

Timestamps (`time.time()`, heartbeat floats) are modelled as `Int`; every
operation that reads the clock takes `now` explicitly, and `uuid4().hex`
tokens are passed in by the caller.  Messages follow the source, with the
single quotes that Python puts around interpolated names elided. -/

/-- Value stored in `CollectorInfo.assigned_tasks`:
`{'sources': [...], 'end_time': ...}`. -/
structure TaskAsg where
  sources : List String
  end_time : Int
deriving DecidableEq

/-- `CollectorInfo.__init__` state (collector_manager.py lines 12-33). -/
structure CollectorInfo where
  name : String
  secret : String
  token : Option String
  last_heartbeat : Option Int
  assigned_tasks : List (String × TaskAsg)
  tasks_assigned_count : Nat
  tasks_completed_count : Nat
  heartbeat_count : Nat
  last_result_time : Option Int
deriving DecidableEq

/-- `CollectorInfo(name, secret)` constructor. -/
def CollectorInfo.init (name secret : String) : CollectorInfo :=
  { name := name, secret := secret, token := none, last_heartbeat := none,
    assigned_tasks := [], tasks_assigned_count := 0,
    tasks_completed_count := 0, heartbeat_count := 0, last_result_time := none }

/-- `CollectorInfo.record_heartbeat` (lines 47-56). -/
def CollectorInfo.record_heartbeat (info : CollectorInfo)
    (timestamp : Option Int) (now : Int) : CollectorInfo :=
  let t := timestamp.getD now
  { info with last_heartbeat := some t,
              heartbeat_count := info.heartbeat_count + 1 }

/-- `CollectorInfo.assign_task` (lines 58-71): the assignment entry for
`task_id` is overwritten wholesale and the counter always increments. -/
def CollectorInfo.assign_task (info : CollectorInfo) (task_id : String)
    (sources : List String) (end_time : Int) : CollectorInfo :=
  { info with
      assigned_tasks := dset info.assigned_tasks task_id ⟨sources, end_time⟩,
      tasks_assigned_count := info.tasks_assigned_count + 1 }

set_option linter.unusedVariables false in
/-- `CollectorInfo.record_task_result` (lines 73-84); `task_id` is accepted
but unused, exactly as in the source. -/
def CollectorInfo.record_task_result (info : CollectorInfo) (task_id : String)
    (timestamp : Option Int) (now : Int) : CollectorInfo :=
  let t := timestamp.getD now
  { info with tasks_completed_count := info.tasks_completed_count + 1,
              last_result_time := some t }

/-- `CollectorManager.__init__` (lines 136-142): registry map plus
token → name reverse index. -/
structure CollectorManager where
  collectors : List (String × CollectorInfo)
  tokens : List (String × String)
deriving DecidableEq

def CollectorManager.empty : CollectorManager := ⟨[], []⟩

/-- `CollectorManager.register_collector` (lines 144-159). -/
def CollectorManager.register_collector (cm : CollectorManager)
    (name secret : String) : (Bool × String) × CollectorManager :=
  if (dget cm.collectors name).isSome then
    ((false, s!"Collector {name} is already registered."), cm)
  else
    ((true, s!"Collector {name} registered successfully."),
     { cm with collectors := dset cm.collectors name (CollectorInfo.init name secret) })

/-- `CollectorManager.login_collector` (lines 161-180).  The fresh
`uuid4().hex` value is the `token` argument.  The prior token, if any, is
left in the reverse index. -/
def CollectorManager.login_collector (cm : CollectorManager)
    (name secret token : String) (now : Int) :
    (Bool × Option String × String) × CollectorManager :=
  match dget cm.collectors name with
  | none => ((false, none, "Invalid collector name or secret."), cm)
  | some info =>
    if info.secret ≠ secret then
      ((false, none, "Invalid collector name or secret."), cm)
    else
      let info' := CollectorInfo.record_heartbeat { info with token := some token } none now
      ((true, some token, "Login successful."),
       { collectors := dset cm.collectors name info',
         tokens := dset cm.tokens token name })

/-- `CollectorManager.heartbeat` (lines 182-198).  `if not name or name not
in self._collectors`: an empty name string is falsy in Python. -/
def CollectorManager.heartbeat (cm : CollectorManager) (token : String)
    (timestamp : Option Int) (now : Int) : (Bool × String) × CollectorManager :=
  match dget cm.tokens token with
  | none => ((false, "Invalid or expired token."), cm)
  | some name =>
    if name = "" ∨ (dget cm.collectors name).isNone then
      ((false, "Invalid or expired token."), cm)
    else
      ((true, "Heartbeat recorded."),
       { cm with collectors :=
           dmodify cm.collectors name (fun i => i.record_heartbeat timestamp now) })

/-- Python truthiness test in `choose_least_loaded_collector`:
`info.last_heartbeat and (now - info.last_heartbeat) <= max_idle`
(`None` and `0.0` are falsy). -/
def isLiveCollector (max_idle now : Int) (info : CollectorInfo) : Bool :=
  match info.last_heartbeat with
  | none => false
  | some hb => decide (hb ≠ 0) && decide (now - hb ≤ max_idle)

/-- The `candidates` list built by `choose_least_loaded_collector`
(lines 213-218), in registry insertion order. -/
def CollectorManager.candidates (cm : CollectorManager)
    (max_idle now : Int) : List CollectorInfo :=
  (cm.collectors.map Prod.snd).filter (isLiveCollector max_idle now)

/-- `CollectorManager.choose_least_loaded_collector` (lines 200-221):
`min(candidates, key=lambda c: len(c.assigned_tasks))`. -/
def CollectorManager.choose_least_loaded_collector (cm : CollectorManager)
    (max_idle now : Int) : Option CollectorInfo :=
  pyMin (fun c => c.assigned_tasks.length) (cm.candidates max_idle now)

/-- `CollectorManager.assign_task_to_collector` (lines 223-247). -/
def CollectorManager.assign_task_to_collector (cm : CollectorManager)
    (token task_id : String) (sources : List String) (end_time : Int) :
    (Bool × String) × CollectorManager :=
  match dget cm.tokens token with
  | none => ((false, "Invalid or expired token."), cm)
  | some name =>
    if name = "" then ((false, "Invalid or expired token."), cm)
    else
      match dget cm.collectors name with
      | none =>
        -- `self._collectors[name]` would raise `KeyError`; the manager's own
        -- operations never leave a token pointing at an absent collector.
        ((false, "KeyError"), cm)
      | some _ =>
        let collectors' := dmodify cm.collectors name
          (fun i => i.assign_task task_id sources end_time)
        ((true, s!"Task {task_id} assigned to {name}."),
         { cm with collectors := collectors' })

/-- `CollectorManager.assign_task_balanced` (lines 249-269): three
parameters (`task_id`, `sources`, `end_time`); the default
`max_idle = 60.0` of `choose_least_loaded_collector` is used. -/
def CollectorManager.assign_task_balanced (cm : CollectorManager)
    (task_id : String) (sources : List String) (end_time : Int) (now : Int) :
    (Bool × String) × CollectorManager :=
  match cm.choose_least_loaded_collector 60 now with
  | none => ((false, "No available collectors to assign task."), cm)
  | some info =>
    match info.token with
    | none => ((false, "No available collectors to assign task."), cm)
    | some tok =>
      if tok = "" then ((false, "No available collectors to assign task."), cm)
      else cm.assign_task_to_collector tok task_id sources end_time

/-- `CollectorManager.record_task_result` (lines 271-293). -/
def CollectorManager.record_task_result (cm : CollectorManager)
    (token task_id : String) (timestamp : Option Int) (now : Int) :
    (Bool × String) × CollectorManager :=
  match dget cm.tokens token with
  | none => ((false, "Invalid or expired token."), cm)
  | some name =>
    if name = "" ∨ (dget cm.collectors name).isNone then
      ((false, "Invalid or expired token."), cm)
    else
      let collectors' := dmodify cm.collectors name
        (fun i => i.record_task_result task_id timestamp now)
      ((true, s!"Result for task {task_id} recorded."),
       { cm with collectors := collectors' })

/-! ## Python string primitives

`str.split(sep)`, `str.strip()` and `str.lower()` are modelled by
structural recursion over the character list of the string. -/

/-- Accumulating core of `s.split(sep)` for a one-character separator. -/
def pySplitAux (sep : Char) : List Char → List Char → List String
  | [], acc => [String.mk acc.reverse]
  | c :: cs, acc =>
    if c = sep then String.mk acc.reverse :: pySplitAux sep cs []
    else pySplitAux sep cs (c :: acc)

/-- Python `s.split(sep)` with a one-character separator; `"".split(sep)`
is `[""]`. -/
def pySplit (sep : Char) (s : String) : List String :=
  pySplitAux sep s.data []

/-- Python `s.strip()`: drop whitespace from both ends. -/
def pyStrip (s : String) : String :=
  String.mk (((s.data.dropWhile Char.isWhitespace).reverse.dropWhile Char.isWhitespace).reverse)

/-- Python `s.lower()` (ASCII, which covers the catalog data). -/
def pyLower (s : String) : String :=
  String.mk (s.data.map Char.toLower)

/-! ## `dispatcher/source_catalog.py` -/

/-- One record of `sources.json`. -/
structure SourceRec where
  id : String
  name : String
  url : String
  categories : List String
  locations : List String
deriving DecidableEq

/-- Tag tokenisation used by `list_available_categories` /
`list_available_locations`: split every entry on commas, strip whitespace,
drop empties (no lowercasing here). -/
def splitTags (entries : List String) : List String :=
  entries.flatMap (fun e => ((pySplit ',' e).map pyStrip).filter (fun c => c ≠ ""))

/-- `list_available_categories` (source_catalog.py lines 26-46): the sorted
deduplicated union of category tags. -/
def list_available_categories (sources : List SourceRec) : List String :=
  List.insertionSort (· ≤ ·) ((sources.flatMap (fun s => splitTags s.categories)).dedup)

/-- `list_available_locations` (lines 49-69). -/
def list_available_locations (sources : List SourceRec) : List String :=
  List.insertionSort (· ≤ ·) ((sources.flatMap (fun s => splitTags s.locations)).dedup)

/-- Normalisation of the request side in `match_sources`:
`{c.strip().lower() for c in ... if c.strip()}`. -/
def normQuery (l : List String) : List String :=
  ((l.map pyStrip).filter (fun c => c ≠ "")).map pyLower

/-- Normalisation of the catalog side in `match_sources`: split each entry
on commas, strip, lowercase, drop empties. -/
def normTags (entries : List String) : List String :=
  entries.flatMap
    (fun e => (((pySplit ',' e).map pyStrip).map pyLower).filter (fun c => c ≠ ""))

/-- `match_sources` (lines 72-109): sources whose normalised category set
meets the request categories and whose location set meets the request
locations. -/
def match_sources (task_categories task_locations : List String)
    (sources : List SourceRec) : List SourceRec :=
  let cat_set := normQuery task_categories
  let loc_set := normQuery task_locations
  sources.filter (fun s =>
    (normTags s.categories).any (fun c => cat_set.contains c) &&
    (normTags s.locations).any (fun c => loc_set.contains c))

/-- Contents of `sources.json` as seen by `json.load`: either text that
fails to parse, or a parsed list of records. -/
inductive CatalogFile
  | malformed
  | wellFormed (sources : List SourceRec)
deriving DecidableEq

/-- `load_sources` (source_catalog.py lines 5-22): `open` + `json.load`
with no exception handler, so a malformed file raises `JSONDecodeError`
which propagates to the caller. -/
def load_sources : CatalogFile → Except String (List SourceRec)
  | .malformed => .error "json.decoder.JSONDecodeError"
  | .wellFormed s => .ok s

/-! ## `dispatcher/task_manager.py`

The sqlite table is a list of rows in insertion order; all time columns are
ISO strings compared as TEXT, as sqlite does. -/

structure TaskRow where
  task_id : String
  token : String
  keywords : String
  categories : List String
  locations : List String
  start_time : String
  end_time : String
  status : String
  created_at : String
  updated_at : String
deriving DecidableEq

/-- `TaskManager.create_task` (task_manager.py lines 32-57): INSERT with
status PENDING and both timestamps set to `now`. -/
def create_task (db : List TaskRow) (task_id token keywords : String)
    (categories locations : List String) (start_time end_time now : String) :
    List TaskRow :=
  db ++ [{ task_id := task_id, token := token, keywords := keywords,
           categories := categories, locations := locations,
           start_time := start_time, end_time := end_time,
           status := "PENDING", created_at := now, updated_at := now }]

/-- `TaskManager.update_status` (lines 59-67): UPDATE status and
updated_at WHERE task_id matches. -/
def update_status (db : List TaskRow) (task_id new_status now : String) :
    List TaskRow :=
  db.map (fun r =>
    if r.task_id = task_id then { r with status := new_status, updated_at := now } else r)

def mark_dispatched (db : List TaskRow) (task_id now : String) : List TaskRow :=
  update_status db task_id "DISPATCHED" now

def mark_completed (db : List TaskRow) (task_id now : String) : List TaskRow :=
  update_status db task_id "COMPLETED" now

def mark_failed (db : List TaskRow) (task_id now : String) : List TaskRow :=
  update_status db task_id "FAILED" now

/-- `TaskManager.get_task` (lines 82-98): `fetchone` of the matching rows. -/
def get_task (db : List TaskRow) (task_id : String) : Option TaskRow :=
  db.find? (fun r => r.task_id = task_id)

/-- sqlite TEXT comparison (byte-wise / lexicographic on characters). -/
def strLeCh : List Char → List Char → Bool
  | [], _ => true
  | _ :: _, [] => false
  | a :: as, b :: bs =>
    if a < b then true
    else if b < a then false
    else strLeCh as bs

/-- `x <= y` on TEXT columns. -/
def strLe (x y : String) : Bool := strLeCh x.data y.data

theorem strLeCh_total (x y : List Char) : strLeCh x y = true ∨ strLeCh y x = true := by
  induction x generalizing y with
  | nil => left; rfl
  | cons a as ih =>
    cases y with
    | nil => right; rfl
    | cons b bs =>
      rcases lt_trichotomy a b with h | h | h
      · left; simp [strLeCh, h]
      · subst h
        rcases ih bs with h1 | h1
        · left; simp [strLeCh, lt_irrefl, h1]
        · right; simp [strLeCh, lt_irrefl, h1]
      · right; simp [strLeCh, h]

theorem strLeCh_trans (x y z : List Char) (h1 : strLeCh x y = true)
    (h2 : strLeCh y z = true) : strLeCh x z = true := by
  induction x generalizing y z with
  | nil => rfl
  | cons a as ih =>
    cases y with
    | nil => simp [strLeCh] at h1
    | cons b bs =>
      cases z with
      | nil => simp [strLeCh] at h2
      | cons c cs =>
        rcases lt_trichotomy a b with hab | hab | hab
        · rcases lt_trichotomy b c with hbc | hbc | hbc
          · simp [strLeCh, lt_trans hab hbc]
          · subst hbc; simp [strLeCh, hab]
          · simp [strLeCh, hbc, not_lt_of_gt hbc] at h2
        · subst hab
          rcases lt_trichotomy a c with hac | hac | hac
          · simp [strLeCh, hac]
          · subst hac
            simp [strLeCh, lt_irrefl] at h1 h2 ⊢
            exact ih bs cs h1 h2
          · simp [strLeCh, hac, not_lt_of_gt hac] at h2
        · simp [strLeCh, hab, not_lt_of_gt hab] at h1

/-- WHERE clause of `TaskManager.list_tasks` (lines 117-128).  Python
truthiness: `if token:` skips the clause for `None` and for the empty
string, `if statuses:` for `None` and the empty list. -/
def rowMatches (token : Option String) (statuses : Option (List String))
    (time_range : Option (String × String)) (r : TaskRow) : Bool :=
  (match token with
   | none => true
   | some t => if t = "" then true else r.token == t) &&
  (match statuses with
   | none => true
   | some l => if l = [] then true else l.contains r.status) &&
  (match time_range with
   | none => true
   | some (a, b) => strLe a r.start_time && strLe r.start_time b)

/-- `ORDER BY created_at DESC` on a TEXT column. -/
def createdDesc (a b : TaskRow) : Prop := strLe b.created_at a.created_at = true

instance : DecidableRel createdDesc :=
  fun a b => inferInstanceAs (Decidable (strLe b.created_at a.created_at = true))

instance : IsTotal TaskRow createdDesc :=
  ⟨fun a b => strLeCh_total b.created_at.data a.created_at.data⟩

instance : IsTrans TaskRow createdDesc :=
  ⟨fun _ _ _ h1 h2 => strLeCh_trans _ _ _ h2 h1⟩

def sortByCreatedDesc (db : List TaskRow) : List TaskRow :=
  List.insertionSort createdDesc db

/-- sqlite `LIMIT ?`: a negative limit means no upper bound. -/
def sqlLimit (limit : Int) (rows : List TaskRow) : List TaskRow :=
  if limit < 0 then rows else rows.take limit.toNat

/-- sqlite `OFFSET ?`: a negative offset behaves like zero. -/
def sqlOffset (offset : Int) (rows : List TaskRow) : List TaskRow :=
  rows.drop offset.toNat

/-- `TaskManager.list_tasks` (lines 100-157).  The method appends the SQL
fragments `LIMIT ?` / `OFFSET ?` independently, but sqlite only accepts
OFFSET after a LIMIT clause: `offset` without `limit` produces
`sqlite3.OperationalError` (near OFFSET: syntax error). -/
def list_tasks (db : List TaskRow) (token : Option String)
    (statuses : Option (List String)) (time_range : Option (String × String))
    (limit offset : Option Int) : Except String (List TaskRow) :=
  let rows := sortByCreatedDesc (db.filter (rowMatches token statuses time_range))
  match limit, offset with
  | none, none => .ok rows
  | some l, none => .ok (sqlLimit l rows)
  | some l, some o => .ok (sqlLimit l (sqlOffset o rows))
  | none, some _ => .error "sqlite3.OperationalError: near OFFSET: syntax error"

/-! ## `dispatcher/dispatcher.py` — RPC surface

An RPC handler either returns a response or raises; `grpc_safe` turns an
uncaught exception into a gRPC INTERNAL error, but any state mutated before
the raise stays mutated.  Handlers therefore return `PyOutcome` together
with the post-call state. -/

inductive PyOutcome (α : Type)
  | ok (a : α)
  | raised (msg : String)
deriving DecidableEq

/-- `TaskResult` proto pushed to the per-task result queue. -/
structure TaskResult where
  task_id : String
  result : String
  timestamp : Int
deriving DecidableEq

/-- Shared state of `DispatcherService` / `CollectorDispatcherService`:
client session tokens, the fleet registry, the task table, the
`defaultdict(list)` of per-task result queues and the source snapshot. -/
structure DispatcherState where
  user_tokens : List (String × String)
  cm : CollectorManager
  db : List TaskRow
  results : List (String × List TaskResult)
  sources : List SourceRec
deriving DecidableEq

structure TaskStartResponse where
  success : Bool
  message : String
  task_id : String
deriving DecidableEq

structure StartTaskRequest where
  token : String
  keywords : String
  categories : String
  location : String
  start_time : String
  end_time : String
deriving DecidableEq

/-- `[c.strip() for c in s.split(",") if c.strip()]` (dispatcher.py
lines 99-100). -/
def parseCsv (s : String) : List String :=
  ((pySplit ',' s).map pyStrip).filter (fun c => c ≠ "")

/-- `DispatcherService.StartTask` (dispatcher.py lines 90-138), with the
request timestamps already converted to ISO strings.  The call at line 120
passes four positional arguments to `assign_task_balanced`, whose
definition (collector_manager.py line 249) takes three, so CPython raises
`TypeError` on the first iteration of the per-source loop: the freshly
inserted PENDING row survives and neither `mark_dispatched` nor
`mark_failed` is ever reached. -/
def StartTask (st : DispatcherState) (req : StartTaskRequest)
    (task_id : String) (now : String) :
    PyOutcome TaskStartResponse × DispatcherState :=
  match dget st.user_tokens req.token with
  | none => (.ok ⟨false, "Authentication required", ""⟩, st)
  | some _ =>
    let cats := parseCsv req.categories
    let locs := parseCsv req.location
    let matched := match_sources cats locs st.sources
    if matched.isEmpty then
      (.ok ⟨false, s!"No sources for {cats}/{locs}", ""⟩, st)
    else
      let db' := create_task st.db task_id req.token (pyStrip req.keywords) cats locs
        req.start_time req.end_time now
      (.raised "TypeError: assign_task_balanced() takes 4 positional arguments but 5 were given",
       { st with db := db' })

/-- `CollectorDispatcherService.Heartbeat` (dispatcher.py lines 198-203). -/
def Heartbeat (st : DispatcherState) (token : String) (timestamp : Int)
    (now : Int) : (Bool × String) × DispatcherState :=
  let r := st.cm.heartbeat token (some timestamp) now
  (r.1, { st with cm := r.2 })

structure CollectorTaskResultReq where
  token : String
  task_id : String
  timestamp : Int
  result : String
deriving DecidableEq

structure CollectorTaskResultAck where
  success : Bool
  message : String
deriving DecidableEq

/-- `CollectorDispatcherService.SubmitTaskResult` (dispatcher.py lines
254-267): records metrics through the token-checked manager call, then
unconditionally appends the envelope to the per-task queue and notifies. -/
def SubmitTaskResult (st : DispatcherState) (req : CollectorTaskResultReq)
    (now : Int) : CollectorTaskResultAck × DispatcherState :=
  let r := st.cm.record_task_result req.token req.task_id (some req.timestamp) now
  let tr : TaskResult := ⟨req.task_id, req.result, req.timestamp⟩
  let queue := (dget st.results req.task_id).getD []
  let results' := dset st.results req.task_id (queue ++ [tr])
  (⟨r.1.1, r.1.2⟩, { st with cm := r.2, results := results' })

structure StreamResultsRequest where
  token : String
  task_id : String
deriving DecidableEq

/-- One wake-up of `DispatcherService.StreamResults` (dispatcher.py lines
140-154): pop and yield every queued envelope of `request.task_id`, then
decide from the task status whether the stream terminates.  The request
token is never consulted. -/
def StreamResultsStep (st : DispatcherState) (req : StreamResultsRequest) :
    (List TaskResult × Bool) × DispatcherState :=
  let queue := (dget st.results req.task_id).getD []
  let results' := dset st.results req.task_id []
  let terminal :=
    match get_task st.db req.task_id with
    | some t => t.status == "COMPLETED" || t.status == "FAILED" || t.status == "CANCELLED"
    | none => false
  ((queue, terminal), { st with results := results' })

/-- `DispatcherService.ListAvailableCategories` (dispatcher.py lines
156-163): reload `sources.json`; when `load_sources` raises, the
assignment to `self.sources` is never executed and `grpc_safe` reports
INTERNAL. -/
def ListAvailableCategories (st : DispatcherState) (file : CatalogFile) :
    PyOutcome (List String) × DispatcherState :=
  match load_sources file with
  | .error e => (.raised e, st)
  | .ok srcs => (.ok (list_available_categories srcs), { st with sources := srcs })

/-! ## Result Bus trace model

`SubmitTaskResult` appends under the per-task condition lock, and each
wake-up of a `StreamResults` subscriber pops and yields the whole queue
while holding the same lock, so a concurrent execution for one task is an
interleaving of atomic push and drain events. -/

inductive BusEvent
  | push (tr : TaskResult)
  | drain (sub : String)
deriving DecidableEq

structure BusState where
  queue : List TaskResult
  delivered : List (String × TaskResult)
deriving DecidableEq

/-- One atomic step: `push` is the append of dispatcher.py line 265;
`drain sub` is the `while queue: yield queue.pop(0)` loop of lines 150-151
run by subscriber `sub`. -/
def busStep (st : BusState) : BusEvent → BusState
  | .push tr => { st with queue := st.queue ++ [tr] }
  | .drain sub =>
    { queue := [], delivered := st.delivered ++ st.queue.map (fun tr => (sub, tr)) }

def runBus (tr : List BusEvent) : BusState :=
  tr.foldl busStep ⟨[], []⟩

/-- The envelopes pushed in a trace, in push order. -/
def busPushes (tr : List BusEvent) : List TaskResult :=
  tr.filterMap (fun e => match e with | .push x => some x | .drain _ => none)

/-- What subscriber `sub` has received, in receive order. -/
def receivedBy (sub : String) (st : BusState) : List TaskResult :=
  (st.delivered.filter (fun p => p.1 = sub)).map Prod.snd

/-- Every drain event in the trace belongs to subscriber `sub`. -/
def allDrainsBy (sub : String) (tr : List BusEvent) : Bool :=
  tr.all (fun e => match e with | .push _ => true | .drain s => s == sub)

/-! ## Failover (modelled from the spec)

`CollectorDispatcherService.StreamTasks` (dispatcher.py line 222) calls
`self.collector_manager.failover_dead_collectors(heartbeat_timeout)`, but
no such method exists in `collector_manager.py`; the definitions below
model it from the spec. -/

/-- Modelled from the spec: a worker is dead when its `last_heartbeat` is
older than `2 × heartbeat_timeout`. -/
def isDeadCollector (heartbeat_timeout now : Int) (info : CollectorInfo) : Bool :=
  match info.last_heartbeat with
  | none => false
  | some hb => decide (now - hb > 2 * heartbeat_timeout)

/-- Modelled from the spec: drop dead workers from the registry map and
every token of a dead worker from the token index. -/
def CollectorManager.removeDead (cm : CollectorManager)
    (heartbeat_timeout now : Int) : CollectorManager :=
  let deadNames :=
    dkeys (cm.collectors.filter (fun p => isDeadCollector heartbeat_timeout now p.2))
  { collectors := cm.collectors.filter (fun p => ! isDeadCollector heartbeat_timeout now p.2),
    tokens := cm.tokens.filter (fun p => ! deadNames.contains p.2) }

/-- Record one assignment directly on the named worker
(`CollectorInfo.assign_task` on the registry entry). -/
def assignByName (cm : CollectorManager) (name task_id : String) (d : TaskAsg) :
    CollectorManager :=
  { cm with collectors :=
      dmodify cm.collectors name (fun i => i.assign_task task_id d.sources d.end_time) }

/-- Modelled from the spec: reassign each orphaned (dead_worker, task_id,
assignment) via the Assignment Engine — pick the least-loaded live worker;
when none exists the assignment is dropped (`NO_WORKERS_AVAILABLE`).
Returns the (dead_worker, task_id, new_worker) triples. -/
def reassignAll (max_idle now : Int) :
    List (String × String × TaskAsg) → CollectorManager →
    List (String × String × String) × CollectorManager
  | [], cm => ([], cm)
  | (d, tid, data) :: rest, cm =>
    match cm.choose_least_loaded_collector max_idle now with
    | none => reassignAll max_idle now rest cm
    | some info =>
      let r := reassignAll max_idle now rest (assignByName cm info.name tid data)
      ((d, tid, info.name) :: r.1, r.2)

/-- Modelled from the spec: `failover_dead(heartbeat_timeout)` — identify
workers whose `last_heartbeat` is older than `2 × heartbeat_timeout`,
remove them from the registry and token index, and reassign each of their
outstanding task assignments via the Assignment Engine, returning the
(dead_worker, task_id, new_worker) triples.  (The method
`failover_dead_collectors` is called from `StreamTasks` but absent from
`collector_manager.py`.) -/
def CollectorManager.failover_dead_collectors (cm : CollectorManager)
    (heartbeat_timeout max_idle now : Int) :
    List (String × String × String) × CollectorManager :=
  let dead := cm.collectors.filter (fun p => isDeadCollector heartbeat_timeout now p.2)
  let work := dead.flatMap (fun p => p.2.assigned_tasks.map (fun tp => (p.1, tp.1, tp.2)))
  reassignAll max_idle now work (cm.removeDead heartbeat_timeout now)

/-! ## Claims -/

/-- C9 counterexample: on a malformed catalog file `load_sources` raises —
`json.load`'s `JSONDecodeError` propagates — instead of yielding the empty
catalog the claim promises. -/
theorem C9_counterexample :
    load_sources .malformed = .error "json.decoder.JSONDecodeError" ∧
    load_sources .malformed ≠ .ok ([] : List SourceRec) := by
  constructor
  · rfl
  · simp [load_sources]

/-- C9 (amended): loading a malformed catalog file raises; inside
`ListAvailableCategories` the reload fails before the assignment to
`self.sources`, so the handler reports INTERNAL (via `grpc_safe`) and the
in-memory catalog keeps its previous value — it does not become empty.  A
well-formed file replaces the snapshot with its parsed records. -/
theorem C9_malformed_catalog_raises (st : DispatcherState) :
    ListAvailableCategories st .malformed
      = (.raised "json.decoder.JSONDecodeError", st) ∧
    ∀ srcs, (ListAvailableCategories st (.wellFormed srcs)).2.sources = srcs := by
  constructor
  · rfl
  · intro srcs
    rfl

/-- C10: `StreamResults` performs no authentication or ownership check —
the handler reads only `request.task_id`, so two requests for the same
task with different (possibly never-issued) tokens stream identically from
identical state. -/
theorem C10_streamResults_ignores_token (st : DispatcherState)
    (r1 r2 : StreamResultsRequest) (h : r1.task_id = r2.task_id) :
    StreamResultsStep st r1 = StreamResultsStep st r2 := by
  cases r1
  cases r2
  simp only at h
  simp [StreamResultsStep, h]

theorem C10_streamResults_ignores_token_witness :
    ("tokA" : String) ≠ "tokB" ∧
    StreamResultsStep ⟨[], CollectorManager.empty, [], [("T", [⟨"T", "r", 5⟩])], []⟩ ⟨"tokA", "T"⟩
      = StreamResultsStep ⟨[], CollectorManager.empty, [], [("T", [⟨"T", "r", 5⟩])], []⟩ ⟨"tokB", "T"⟩ :=
  ⟨by decide, C10_streamResults_ignores_token _ _ _ rfl⟩

/-- C4 counterexample: `SubmitTaskResult` with a token absent from the
token index returns success=false but still appends the envelope to the
task's Result Bus queue — dispatcher state is mutated, refuting the claim
that nothing changes. -/
theorem C4_counterexample :
    (SubmitTaskResult ⟨[], CollectorManager.empty, [], [], []⟩ ⟨"bogus", "T", 7, "p"⟩ 100).1.success = false ∧
    dget (SubmitTaskResult ⟨[], CollectorManager.empty, [], [], []⟩ ⟨"bogus", "T", 7, "p"⟩ 100).2.results "T"
      = some [⟨"T", "p", 7⟩] ∧
    (SubmitTaskResult ⟨[], CollectorManager.empty, [], [], []⟩ ⟨"bogus", "T", 7, "p"⟩ 100).2.results
      ≠ ([] : List (String × List TaskResult)) := by
  refine ⟨by decide, by decide, by decide⟩

/-- C4 (amended): with a token absent from the token index, `Heartbeat`
and `record_task_result` fail with the invalid-token message and leave all
state unchanged; `SubmitTaskResult` also returns success=false and leaves
the registry and task store unchanged, but still appends the envelope to
the task's result queue and notifies subscribers. -/
theorem C4_invalid_token (st : DispatcherState) (token task_id payload : String)
    (tsH tsR now : Int) (hnone : dget st.cm.tokens token = none) :
    Heartbeat st token tsH now = ((false, "Invalid or expired token."), st) ∧
    st.cm.record_task_result token task_id (some tsR) now
      = ((false, "Invalid or expired token."), st.cm) ∧
    (SubmitTaskResult st ⟨token, task_id, tsR, payload⟩ now).1
      = ⟨false, "Invalid or expired token."⟩ ∧
    (SubmitTaskResult st ⟨token, task_id, tsR, payload⟩ now).2.cm = st.cm ∧
    (SubmitTaskResult st ⟨token, task_id, tsR, payload⟩ now).2.db = st.db ∧
    (SubmitTaskResult st ⟨token, task_id, tsR, payload⟩ now).2.results
      = dset st.results task_id
          ((dget st.results task_id).getD [] ++ [⟨task_id, payload, tsR⟩]) := by
  refine ⟨?_, ?_, ?_, ?_, ?_, ?_⟩ <;>
    simp [Heartbeat, SubmitTaskResult, CollectorManager.heartbeat,
      CollectorManager.record_task_result, hnone]

theorem C4_invalid_token_witness :
    dget (CollectorManager.empty).tokens "bogus" = none ∧
    Heartbeat ⟨[], CollectorManager.empty, [], [], []⟩ "bogus" 1 2
      = ((false, "Invalid or expired token."), ⟨[], CollectorManager.empty, [], [], []⟩) :=
  ⟨by decide,
   (C4_invalid_token ⟨[], CollectorManager.empty, [], [], []⟩ "bogus" "T" "p" 1 1 2 (by decide)).1⟩

/-- C3 counterexample: register worker w, log in twice (tokens t1 then
t2); a heartbeat presented with the FIRST token still succeeds, so the
prior token was not invalidated. -/
theorem C3_counterexample :
    ((((CollectorManager.empty.register_collector "w" "s").2.login_collector
        "w" "s" "t1" 10).2.login_collector "w" "s" "t2" 20).2.heartbeat
        "t1" none 30).1 = (true, "Heartbeat recorded.") := by decide

/-- C3 (amended): a second successful login stores the fresh token in
`info.token` and installs it in the token index, but the prior token stays
in the index; `heartbeat` (like `assign_task_to_collector` and
`record_task_result`) resolves tokens through the index alone, so
operations presented with the first token still succeed. -/
theorem C3_login_keeps_prior_token (name secret t1 t2 : String)
    (now1 now2 ts now3 : Int) (hname : name ≠ "") (ht : t1 ≠ t2) :
    dget ((((CollectorManager.empty.register_collector name secret).2.login_collector
        name secret t1 now1).2.login_collector name secret t2 now2).2).tokens t1 = some name ∧
    (∃ info,
      dget ((((CollectorManager.empty.register_collector name secret).2.login_collector
          name secret t1 now1).2.login_collector name secret t2 now2).2).collectors name = some info ∧
      info.token = some t2) ∧
    (((((CollectorManager.empty.register_collector name secret).2.login_collector
        name secret t1 now1).2.login_collector name secret t2 now2).2).heartbeat
        t1 (some ts) now3).1 = (true, "Heartbeat recorded.") := by
  have hne : ¬ t1 = t2 := ht
  have hname' : ¬ name = "" := hname
  refine ⟨?_, ?_, ?_⟩ <;>
    simp [CollectorManager.register_collector, CollectorManager.login_collector,
      CollectorManager.heartbeat, CollectorManager.empty, CollectorInfo.init,
      CollectorInfo.record_heartbeat, dset, dget, hne, hname']

theorem C3_login_keeps_prior_token_witness :
    ("w" : String) ≠ "" ∧ ("t1" : String) ≠ "t2" ∧
    (((((CollectorManager.empty.register_collector "w" "s").2.login_collector
        "w" "s" "t1" 10).2.login_collector "w" "s" "t2" 20).2).heartbeat
        "t1" (some 25) 30).1 = (true, "Heartbeat recorded.") :=
  ⟨by decide, by decide,
   (C3_login_keeps_prior_token "w" "s" "t1" "t2" 10 20 25 30 (by decide) (by decide)).2.2⟩

/-- C6 counterexample: worker already holds task T with sources ["a"];
assigning T again with ["b"] leaves the entry as exactly ["b"] — the old
source "a" is not merged in — and the assigned counter is bumped even
though T is not a first appearance. -/
theorem C6_counterexample :
    dget (({ CollectorInfo.init "w" "s" with
        assigned_tasks := [("T", ⟨["a"], 100⟩)],
        tasks_assigned_count := 1 } : CollectorInfo).assign_task "T" ["b"] 200).assigned_tasks "T"
      = some ⟨["b"], 200⟩ ∧
    "a" ∉ (["b"] : List String) ∧
    (({ CollectorInfo.init "w" "s" with
        assigned_tasks := [("T", ⟨["a"], 100⟩)],
        tasks_assigned_count := 1 } : CollectorInfo).assign_task "T" ["b"] 200).tasks_assigned_count
      = 2 := by
  refine ⟨by decide, by decide, by decide⟩

/-- C6 (amended): `assign_task` overwrites the entry for task_id with
exactly the given sources and end time — it does not merge with a prior
entry — and increments the assigned counter on every call, not only on
first appearance; the worker's task list still holds task_id exactly once
whenever its keys were duplicate-free. -/
theorem C6_assign_task_overwrites (info : CollectorInfo) (tid : String)
    (srcs : List String) (et : Int) :
    dget (info.assign_task tid srcs et).assigned_tasks tid = some ⟨srcs, et⟩ ∧
    (info.assign_task tid srcs et).tasks_assigned_count
      = info.tasks_assigned_count + 1 ∧
    ((dkeys info.assigned_tasks).Nodup →
      (dkeys (info.assign_task tid srcs et).assigned_tasks).Nodup ∧
      (dkeys (info.assign_task tid srcs et).assigned_tasks).count tid = 1) := by
  refine ⟨dget_dset_self _ _ _, rfl, ?_⟩
  intro hnd
  by_cases hmem : tid ∈ dkeys info.assigned_tasks
  · rw [show (info.assign_task tid srcs et).assigned_tasks
        = dset info.assigned_tasks tid ⟨srcs, et⟩ from rfl,
      dkeys_dset_mem _ _ _ hmem]
    exact ⟨hnd, List.count_eq_one_of_mem hnd hmem⟩
  · rw [show (info.assign_task tid srcs et).assigned_tasks
        = dset info.assigned_tasks tid ⟨srcs, et⟩ from rfl,
      dkeys_dset_not_mem _ _ _ hmem]
    have hnd' : (dkeys info.assigned_tasks ++ [tid]).Nodup := by
      simp [List.nodup_append, hnd, hmem]
    refine ⟨hnd', List.count_eq_one_of_mem hnd' (by simp)⟩

theorem C6_assign_task_overwrites_witness :
    (dkeys (([("T", ⟨["a"], (100 : Int)⟩)]) : List (String × TaskAsg))).Nodup ∧
    (dkeys (({ CollectorInfo.init "w" "s" with
        assigned_tasks := [("T", ⟨["a"], 100⟩)],
        tasks_assigned_count := 1 } : CollectorInfo).assign_task "T" ["b"] 200).assigned_tasks).count "T" = 1 :=
  ⟨by decide,
   ((C6_assign_task_overwrites { CollectorInfo.init "w" "s" with
        assigned_tasks := [("T", ⟨["a"], 100⟩)],
        tasks_assigned_count := 1 } "T" ["b"] 200).2.2 (by decide)).2⟩

/-! ### Result Bus lemmas (C5) -/

theorem busFold_delivered_queue (events : List BusEvent) (st : BusState) :
    ((events.foldl busStep st).delivered.map Prod.snd ++ (events.foldl busStep st).queue)
      = st.delivered.map Prod.snd ++ st.queue ++ busPushes events := by
  induction events generalizing st with
  | nil => simp [busPushes]
  | cons e rest ih =>
    cases e with
    | push tr =>
      rw [List.foldl_cons, ih]
      simp [busStep, busPushes, List.filterMap_cons]
    | drain sub =>
      rw [List.foldl_cons, ih]
      simp [busStep, busPushes, List.filterMap_cons]

theorem busFold_all_tagged (sub : String) (events : List BusEvent) (st : BusState)
    (hst : st.delivered.all (fun p => p.1 == sub) = true)
    (hev : allDrainsBy sub events = true) :
    (events.foldl busStep st).delivered.all (fun p => p.1 == sub) = true := by
  induction events generalizing st with
  | nil => exact hst
  | cons e rest ih =>
    cases e with
    | push tr =>
      have hev' : allDrainsBy sub rest = true := by
        simpa [allDrainsBy] using hev
      exact ih _ (by simpa [busStep] using hst) hev'
    | drain s =>
      have h := hev
      simp [allDrainsBy] at h
      have hs : s = sub := h.1
      have hev' : allDrainsBy sub rest = true := by
        simp [allDrainsBy]
        exact h.2
      refine ih _ ?_ hev'
      subst hs
      simp [busStep, List.all_append] at hst ⊢
      intro a b hab
      exact hst a b hab

/-- C5 counterexample: with two subscribers the shared per-task queue is
split between them, not fanned out: after [push e1, drain s1, push e2,
drain s2] subscriber s1 has received only e1 even though it drained the
task, so not every subscriber receives every pushed envelope. -/
theorem C5_counterexample :
    receivedBy "s1" (runBus [BusEvent.push ⟨"T", "r1", 1⟩, BusEvent.drain "s1",
        BusEvent.push ⟨"T", "r2", 2⟩, BusEvent.drain "s2"]) = [⟨"T", "r1", 1⟩] ∧
    receivedBy "s2" (runBus [BusEvent.push ⟨"T", "r1", 1⟩, BusEvent.drain "s1",
        BusEvent.push ⟨"T", "r2", 2⟩, BusEvent.drain "s2"]) = [⟨"T", "r2", 2⟩] ∧
    busPushes [BusEvent.push ⟨"T", "r1", 1⟩, BusEvent.drain "s1",
        BusEvent.push ⟨"T", "r2", 2⟩, BusEvent.drain "s2"] = [⟨"T", "r1", 1⟩, ⟨"T", "r2", 2⟩] ∧
    receivedBy "s1" (runBus [BusEvent.push ⟨"T", "r1", 1⟩, BusEvent.drain "s1",
        BusEvent.push ⟨"T", "r2", 2⟩, BusEvent.drain "s2"])
      ≠ busPushes [BusEvent.push ⟨"T", "r1", 1⟩, BusEvent.drain "s1",
        BusEvent.push ⟨"T", "r2", 2⟩, BusEvent.drain "s2"] := by
  refine ⟨by decide, by decide, by decide, by decide⟩

/-- C5 (amended): along any interleaving of pushes and subscriber drains
for one task, every pushed envelope is delivered to exactly one subscriber
— globally in push order, so what remains queued is exactly the tail of
the push sequence; each subscriber therefore receives a subsequence of the
push order, and a SOLE subscriber receives, once the trace ends, every
envelope except the still-queued tail, exactly once and in push order.
Envelopes are split between multiple subscribers, not fanned out to each. -/
theorem C5_result_bus (tr : List BusEvent) :
    ((runBus tr).delivered.map Prod.snd ++ (runBus tr).queue = busPushes tr) ∧
    (∀ sub, List.Sublist (receivedBy sub (runBus tr)) (busPushes tr)) ∧
    (∀ sub, allDrainsBy sub tr = true →
      receivedBy sub (runBus tr) ++ (runBus tr).queue = busPushes tr) := by
  have hmain : (runBus tr).delivered.map Prod.snd ++ (runBus tr).queue = busPushes tr := by
    have := busFold_delivered_queue tr ⟨[], []⟩
    simpa [runBus] using this
  refine ⟨hmain, ?_, ?_⟩
  · intro sub
    have h1 : List.Sublist ((runBus tr).delivered.filter (fun p => p.1 = sub))
        (runBus tr).delivered := List.filter_sublist _
    have h2 : List.Sublist (receivedBy sub (runBus tr)) ((runBus tr).delivered.map Prod.snd) :=
      List.Sublist.map Prod.snd h1
    have h3 : List.Sublist ((runBus tr).delivered.map Prod.snd) (busPushes tr) := by
      rw [← hmain]
      exact List.sublist_append_left _ _
    exact h2.trans h3
  · intro sub hall
    have htag : (runBus tr).delivered.all (fun p => p.1 == sub) = true :=
      busFold_all_tagged sub tr ⟨[], []⟩ (by simp) hall
    have hfilter : (runBus tr).delivered.filter (fun p => p.1 = sub)
        = (runBus tr).delivered := by
      apply List.filter_eq_self.mpr
      intro p hp
      have := List.all_eq_true.mp htag p hp
      simpa using this
    rw [receivedBy, hfilter, hmain]

theorem C5_result_bus_witness :
    allDrainsBy "s" [BusEvent.push ⟨"T", "r1", 1⟩, BusEvent.drain "s",
        BusEvent.push ⟨"T", "r2", 2⟩, BusEvent.drain "s"] = true ∧
    receivedBy "s" (runBus [BusEvent.push ⟨"T", "r1", 1⟩, BusEvent.drain "s",
        BusEvent.push ⟨"T", "r2", 2⟩, BusEvent.drain "s"])
      ++ (runBus [BusEvent.push ⟨"T", "r1", 1⟩, BusEvent.drain "s",
        BusEvent.push ⟨"T", "r2", 2⟩, BusEvent.drain "s"]).queue
      = busPushes [BusEvent.push ⟨"T", "r1", 1⟩, BusEvent.drain "s",
        BusEvent.push ⟨"T", "r2", 2⟩, BusEvent.drain "s"] :=
  ⟨by decide,
   (C5_result_bus [BusEvent.push ⟨"T", "r1", 1⟩, BusEvent.drain "s",
        BusEvent.push ⟨"T", "r2", 2⟩, BusEvent.drain "s"]).2.2 "s" (by decide)⟩

/-! ### Least-loaded choice (C7) -/

/-- C7 counterexample: two live workers with equal load; w2 has the
earlier last_heartbeat (10 < 50) yet `choose_least_loaded_collector`
returns w1, the first candidate in registry insertion order — ties are not
broken by earliest heartbeat. -/
theorem C7_counterexample :
    ((⟨[("w1", { CollectorInfo.init "w1" "s" with last_heartbeat := some 50 }),
        ("w2", { CollectorInfo.init "w2" "s" with last_heartbeat := some 10 })], []⟩ :
        CollectorManager).choose_least_loaded_collector 60 60).map CollectorInfo.name
      = some "w1" ∧
    ({ CollectorInfo.init "w2" "s" with last_heartbeat := some 10 } : CollectorInfo)
      ∈ (⟨[("w1", { CollectorInfo.init "w1" "s" with last_heartbeat := some 50 }),
        ("w2", { CollectorInfo.init "w2" "s" with last_heartbeat := some 10 })], []⟩ :
        CollectorManager).candidates 60 60 ∧
    (10 : Int) < 50 ∧ ("w1" : String) ≠ "w2" := by
  refine ⟨by decide, by decide, by decide, by decide⟩

/-- C7 (amended): among the live candidates — workers whose last_heartbeat
is set, non-zero, and within max_idle of now — the choice is `none`
exactly when no candidate exists, and otherwise is a candidate of minimal
load; ties are broken in favour of the FIRST such candidate in registry
insertion order, not the earliest heartbeat. -/
theorem C7_choose_least_loaded (cm : CollectorManager) (max_idle now : Int) :
    (cm.choose_least_loaded_collector max_idle now = none
      ↔ cm.candidates max_idle now = []) ∧
    (∀ info, cm.choose_least_loaded_collector max_idle now = some info →
      info ∈ cm.candidates max_idle now ∧
      (∀ c ∈ cm.candidates max_idle now,
        info.assigned_tasks.length ≤ c.assigned_tasks.length) ∧
      ((cm.candidates max_idle now).filter
        (fun c => c.assigned_tasks.length = info.assigned_tasks.length)).head?
        = some info) := by
  constructor
  · unfold CollectorManager.choose_least_loaded_collector
    cases h : cm.candidates max_idle now with
    | nil => simp [pyMin]
    | cons x xs => simp [pyMin]
  · intro info hsome
    refine ⟨pyMin_mem _ _ _ hsome, pyMin_le _ _ _ hsome, pyMin_first _ _ _ hsome⟩

theorem C7_choose_least_loaded_witness :
    ((⟨[("w1", { CollectorInfo.init "w1" "s" with last_heartbeat := some 50 }),
        ("w2", { CollectorInfo.init "w2" "s" with last_heartbeat := some 10 })], []⟩ :
        CollectorManager).choose_least_loaded_collector 60 60
      = some { CollectorInfo.init "w1" "s" with last_heartbeat := some 50 }) ∧
    ({ CollectorInfo.init "w1" "s" with last_heartbeat := some 50 } : CollectorInfo)
      ∈ (⟨[("w1", { CollectorInfo.init "w1" "s" with last_heartbeat := some 50 }),
        ("w2", { CollectorInfo.init "w2" "s" with last_heartbeat := some 10 })], []⟩ :
        CollectorManager).candidates 60 60 :=
  ⟨by decide,
   ((C7_choose_least_loaded
      ⟨[("w1", { CollectorInfo.init "w1" "s" with last_heartbeat := some 50 }),
        ("w2", { CollectorInfo.init "w2" "s" with last_heartbeat := some 10 })], []⟩ 60 60).2
      { CollectorInfo.init "w1" "s" with last_heartbeat := some 50 } (by decide)).1⟩

/-! ### Task listing (C8) -/

theorem sqlLimit_isInfix (l : Int) (xs : List TaskRow) : sqlLimit l xs <:+: xs := by
  unfold sqlLimit
  by_cases hl : l < 0
  · simp [hl]
  · simp only [hl, if_false]
    exact ⟨[], xs.drop l.toNat, by simp⟩

theorem sqlOffset_isInfix (o : Int) (xs : List TaskRow) : sqlOffset o xs <:+: xs :=
  ⟨xs.take o.toNat, [], by simp [sqlOffset]⟩

/-- C8 counterexample: pagination with `offset` present but `limit` absent
raises `sqlite3.OperationalError` — the generated SQL has OFFSET with no
LIMIT clause — so not every limit/offset combination returns a page. -/
theorem C8_counterexample :
    list_tasks [] none none none none (some 1)
      = .error "sqlite3.OperationalError: near OFFSET: syntax error" ∧
    ∀ rows, list_tasks [] none none none none (some 1) ≠ .ok rows := by
  constructor
  · rfl
  · intro rows h
    simp [list_tasks] at h

/-- C8 (amended): task listing filters by token, status set and start-time
range, orders by created_at descending, and for every combination of limit
and offset in which offset is only supplied together with limit it returns
the corresponding page without error: the page is a contiguous slice of
the sorted filtered listing, itself sorted, with every row matching the
filters.  Offset without limit raises an OperationalError. -/
theorem C8_list_tasks (db : List TaskRow) (token : Option String)
    (statuses : Option (List String)) (time_range : Option (String × String))
    (limit offset : Option Int) (h : offset.isSome → limit.isSome) :
    ∃ rows,
      list_tasks db token statuses time_range limit offset = .ok rows ∧
      List.Sorted createdDesc rows ∧
      (∀ r ∈ rows, rowMatches token statuses time_range r = true) ∧
      rows <:+: sortByCreatedDesc (db.filter (rowMatches token statuses time_range)) := by
  have hsorted : List.Sorted createdDesc
      (sortByCreatedDesc (db.filter (rowMatches token statuses time_range))) :=
    List.sorted_insertionSort createdDesc _
  have hmatch : ∀ r ∈ sortByCreatedDesc (db.filter (rowMatches token statuses time_range)),
      rowMatches token statuses time_range r = true := by
    intro r hr
    have hr' : r ∈ db.filter (rowMatches token statuses time_range) :=
      (List.perm_insertionSort createdDesc _).subset hr
    exact List.of_mem_filter hr'
  have key : ∀ rows : List TaskRow,
      rows <:+: sortByCreatedDesc (db.filter (rowMatches token statuses time_range)) →
      List.Sorted createdDesc rows ∧
      ∀ r ∈ rows, rowMatches token statuses time_range r = true := by
    intro rows hinf
    refine ⟨List.Pairwise.sublist hinf.sublist hsorted, ?_⟩
    intro r hr
    exact hmatch r (hinf.sublist.subset hr)
  rcases limit with _ | l <;> rcases offset with _ | o
  · exact ⟨_, rfl, (key _ (List.infix_refl _)).1, (key _ (List.infix_refl _)).2,
      List.infix_refl _⟩
  · exfalso
    have := h (by simp)
    simp at this
  · have hinf := sqlLimit_isInfix l
      (sortByCreatedDesc (db.filter (rowMatches token statuses time_range)))
    exact ⟨_, rfl, (key _ hinf).1, (key _ hinf).2, hinf⟩
  · have hinf := (sqlLimit_isInfix l
      (sqlOffset o (sortByCreatedDesc (db.filter (rowMatches token statuses time_range))))).trans
      (sqlOffset_isInfix o _)
    exact ⟨_, rfl, (key _ hinf).1, (key _ hinf).2, hinf⟩

theorem C8_list_tasks_witness :
    ((some (1 : Int)).isSome → (some (1 : Int)).isSome) ∧
    ∃ rows,
      list_tasks [⟨"t1", "k", "kw", [], [], "a", "b", "PENDING", "c", "c"⟩]
        none none none (some 1) (some 1) = .ok rows ∧
      List.Sorted createdDesc rows ∧
      (∀ r ∈ rows, rowMatches none none none r = true) ∧
      rows <:+: sortByCreatedDesc
        ([⟨"t1", "k", "kw", [], [], "a", "b", "PENDING", "c", "c"⟩].filter (rowMatches none none none)) :=
  ⟨fun hx => hx,
   C8_list_tasks [⟨"t1", "k", "kw", [], [], "a", "b", "PENDING", "c", "c"⟩]
     none none none (some 1) (some 1) (fun _ => by simp)⟩

/-! ### StartTask (C1) -/

/-- C1: `StartTask` cannot reach its DISPATCHED/FAILED bookkeeping.  With a
valid client token and at least one matching catalog source, the per-source
loop's very first call — `assign_task_balanced(task_id, [src], ts_end,
heartbeat_timeout)`, four positional arguments against a three-parameter
method — raises `TypeError`, which `grpc_safe` surfaces as INTERNAL; the
freshly inserted task row stays PENDING, and neither `success=true` with
DISPATCHED nor `success=false, "No collectors available"` with FAILED is
ever produced. -/
theorem C1_startTask_raises (st : DispatcherState) (req : StartTaskRequest)
    (task_id : String) (now : String)
    (hauth : (dget st.user_tokens req.token).isSome)
    (hmatch : (match_sources (parseCsv req.categories) (parseCsv req.location)
        st.sources).isEmpty = false)
    (hfresh : get_task st.db task_id = none) :
    (StartTask st req task_id now).1
      = .raised "TypeError: assign_task_balanced() takes 4 positional arguments but 5 were given" ∧
    ∃ row, get_task (StartTask st req task_id now).2.db task_id = some row ∧
      row.status = "PENDING" ∧ row.task_id = task_id ∧ row.token = req.token := by
  obtain ⟨u, hu⟩ := Option.isSome_iff_exists.mp hauth
  constructor
  · simp [StartTask, hu, hmatch]
  · refine ⟨⟨task_id, req.token, pyStrip req.keywords, parseCsv req.categories,
      parseCsv req.location, req.start_time, req.end_time, "PENDING", now, now⟩,
      ?_, rfl, rfl, rfl⟩
    simp only [StartTask, hu, hmatch, Bool.false_eq_true, if_false]
    unfold get_task create_task
    rw [List.find?_append]
    unfold get_task at hfresh
    rw [hfresh]
    simp

theorem C1_startTask_raises_witness :
    ((dget ([("t", "alice")]) "t").isSome) ∧
    ((match_sources (parseCsv "g") (parseCsv "l")
        [⟨"s1", "S", "u", ["g"], ["l"]⟩]).isEmpty = false) ∧
    (StartTask ⟨[("t", "alice")], CollectorManager.empty, [], [],
        [⟨"s1", "S", "u", ["g"], ["l"]⟩]⟩
        ⟨"t", "kw", "g", "l", "2025-01-01", "2025-01-02"⟩ "T1" "now").1
      = .raised "TypeError: assign_task_balanced() takes 4 positional arguments but 5 were given" :=
  ⟨by decide, by decide,
   (C1_startTask_raises ⟨[("t", "alice")], CollectorManager.empty, [], [],
        [⟨"s1", "S", "u", ["g"], ["l"]⟩]⟩
        ⟨"t", "kw", "g", "l", "2025-01-01", "2025-01-02"⟩ "T1" "now"
        (by decide) (by decide) (by decide)).1⟩

/-! ### Failover lemmas (C2) -/

/-- Registry well-formedness: every entry's stored name equals its key
(true of every state the manager's own operations build). -/
def namesOk (cm : CollectorManager) : Bool :=
  cm.collectors.all (fun p => p.2.name == p.1)

theorem assign_task_name (i : CollectorInfo) (tid : String) (s : List String) (e : Int) :
    (i.assign_task tid s e).name = i.name := rfl

theorem assign_task_isLive (m now : Int) (i : CollectorInfo) (tid : String)
    (s : List String) (e : Int) :
    isLiveCollector m now (i.assign_task tid s e) = isLiveCollector m now i := rfl

theorem choose_none_iff (cm : CollectorManager) (m now : Int) :
    cm.choose_least_loaded_collector m now = none ↔ cm.candidates m now = [] := by
  unfold CollectorManager.choose_least_loaded_collector
  cases h : cm.candidates m now with
  | nil => simp [pyMin]
  | cons x xs => simp [pyMin]

theorem choose_some_mem {cm : CollectorManager} {m now : Int} {info : CollectorInfo}
    (h : cm.choose_least_loaded_collector m now = some info) :
    info ∈ cm.candidates m now :=
  pyMin_mem _ _ _ h

theorem eq_of_mem_nodup_keys {α : Type} {l : List (String × α)}
    (hnd : (dkeys l).Nodup) {p q : String × α}
    (hp : p ∈ l) (hq : q ∈ l) (h : p.1 = q.1) : p = q := by
  obtain ⟨a, b⟩ := p
  obtain ⟨c, d⟩ := q
  simp only at h
  subst h
  have h1 : dget l a = some b := dget_of_mem_nodup hp hnd
  have h2 : dget l a = some d := dget_of_mem_nodup hq hnd
  rw [h1] at h2
  simp at h2
  simp [h2]

theorem all_names_filter {l : List (String × CollectorInfo)}
    (q : String × CollectorInfo → Bool)
    (h : l.all (fun p => p.2.name == p.1) = true) :
    (l.filter q).all (fun p => p.2.name == p.1) = true := by
  apply List.all_eq_true.mpr
  intro p hp
  exact List.all_eq_true.mp h p (List.mem_of_mem_filter hp)

theorem dkeys_filter_nodup {α : Type} {l : List (String × α)} (q : String × α → Bool)
    (h : (dkeys l).Nodup) : (dkeys (l.filter q)).Nodup := by
  have hsub : List.Sublist (dkeys (l.filter q)) (dkeys l) :=
    (List.filter_sublist l).map Prod.fst
  exact h.sublist hsub

theorem assignByName_tokens (cm : CollectorManager) (n tid : String) (d : TaskAsg) :
    (assignByName cm n tid d).tokens = cm.tokens := rfl

theorem assignByName_dkeys (cm : CollectorManager) (n tid : String) (d : TaskAsg) :
    dkeys (assignByName cm n tid d).collectors = dkeys cm.collectors :=
  dkeys_dmodify _ _ _

theorem all_names_dmodify (l : List (String × CollectorInfo)) (n tid : String)
    (d : TaskAsg) (h : l.all (fun p => p.2.name == p.1) = true) :
    (dmodify l n (fun i => i.assign_task tid d.sources d.end_time)).all
      (fun p => p.2.name == p.1) = true := by
  induction l with
  | nil => rfl
  | cons p rest ih =>
    obtain ⟨a, b⟩ := p
    simp only [List.all_cons, Bool.and_eq_true] at h
    by_cases ha : a = n
    · subst ha
      simp only [dmodify, if_true, List.all_cons, Bool.and_eq_true]
      exact ⟨by simpa [assign_task_name] using h.1, h.2⟩
    · simp only [dmodify, ha, if_false, List.all_cons, Bool.and_eq_true]
      exact ⟨h.1, ih h.2⟩

theorem assignByName_namesOk (cm : CollectorManager) (n tid : String) (d : TaskAsg)
    (h : namesOk cm = true) : namesOk (assignByName cm n tid d) = true :=
  all_names_dmodify cm.collectors n tid d h

theorem filter_live_dmodify_nil_iff (l : List (String × CollectorInfo))
    (n tid : String) (d : TaskAsg) (m now : Int) :
    (((dmodify l n (fun i => i.assign_task tid d.sources d.end_time)).map Prod.snd).filter
      (isLiveCollector m now) = []) ↔
    ((l.map Prod.snd).filter (isLiveCollector m now) = []) := by
  induction l with
  | nil => simp [dmodify]
  | cons p rest ih =>
    obtain ⟨a, b⟩ := p
    by_cases ha : a = n
    · cases hb : isLiveCollector m now b
      · simp [dmodify, ha, List.filter_cons, assign_task_isLive, hb, ih]
      · simp [dmodify, ha, List.filter_cons, assign_task_isLive, hb]
    · cases hb : isLiveCollector m now b
      · simp [dmodify, ha, List.filter_cons, hb, ih]
      · simp [dmodify, ha, List.filter_cons, hb]

theorem candidates_assignByName_nil_iff (cm : CollectorManager) (n tid : String)
    (d : TaskAsg) (m now : Int) :
    ((assignByName cm n tid d).candidates m now = []) ↔ (cm.candidates m now = []) :=
  filter_live_dmodify_nil_iff cm.collectors n tid d m now

/-- The target worker `w` is registered, live, and holds an assignment
entry for `tid`. -/
def HoldsLiveTask (m now : Int) (cm : CollectorManager) (w tid : String) : Prop :=
  ∃ i, dget cm.collectors w = some i ∧ isLiveCollector m now i = true ∧
    (dget i.assigned_tasks tid).isSome = true

theorem holdsLive_assignByName (m now : Int) (cm : CollectorManager)
    (n tid' : String) (d : TaskAsg) (w tid : String)
    (h : HoldsLiveTask m now cm w tid) :
    HoldsLiveTask m now (assignByName cm n tid' d) w tid := by
  obtain ⟨i, hi, hlive, htask⟩ := h
  by_cases hw : w = n
  · subst hw
    refine ⟨i.assign_task tid' d.sources d.end_time, ?_, ?_, ?_⟩
    · show dget (dmodify cm.collectors w _) w = _
      rw [dget_dmodify_self, hi]
      rfl
    · rw [assign_task_isLive]
      exact hlive
    · show (dget (dset i.assigned_tasks tid' ⟨d.sources, d.end_time⟩) tid).isSome = true
      exact dget_isSome_dset _ _ _ _ htask
  · refine ⟨i, ?_, hlive, htask⟩
    show dget (dmodify cm.collectors n _) w = some i
    rw [dget_dmodify_ne _ _ _ _ hw]
    exact hi

theorem reassignAll_cons_none (m now : Int) (d0 tid0 : String) (data0 : TaskAsg)
    (rest : List (String × String × TaskAsg)) (cm : CollectorManager)
    (hc : cm.choose_least_loaded_collector m now = none) :
    reassignAll m now ((d0, tid0, data0) :: rest) cm = reassignAll m now rest cm := by
  show (match cm.choose_least_loaded_collector m now with
    | none => reassignAll m now rest cm
    | some info =>
      let r := reassignAll m now rest (assignByName cm info.name tid0 data0)
      ((d0, tid0, info.name) :: r.1, r.2)) = reassignAll m now rest cm
  rw [hc]

theorem reassignAll_cons_some (m now : Int) (d0 tid0 : String) (data0 : TaskAsg)
    (rest : List (String × String × TaskAsg)) (cm : CollectorManager)
    (info : CollectorInfo)
    (hc : cm.choose_least_loaded_collector m now = some info) :
    reassignAll m now ((d0, tid0, data0) :: rest) cm =
      ((d0, tid0, info.name) ::
        (reassignAll m now rest (assignByName cm info.name tid0 data0)).1,
       (reassignAll m now rest (assignByName cm info.name tid0 data0)).2) := by
  show (match cm.choose_least_loaded_collector m now with
    | none => reassignAll m now rest cm
    | some i =>
      let r := reassignAll m now rest (assignByName cm i.name tid0 data0)
      ((d0, tid0, i.name) :: r.1, r.2)) = _
  rw [hc]

theorem holdsLive_reassignAll (m now : Int) (work : List (String × String × TaskAsg))
    (cm : CollectorManager) (w tid : String) (h : HoldsLiveTask m now cm w tid) :
    HoldsLiveTask m now (reassignAll m now work cm).2 w tid := by
  induction work generalizing cm with
  | nil => exact h
  | cons x rest ih =>
    obtain ⟨d0, tid0, data0⟩ := x
    cases hc : cm.choose_least_loaded_collector m now with
    | none =>
      rw [reassignAll_cons_none m now d0 tid0 data0 rest cm hc]
      exact ih cm h
    | some info =>
      rw [reassignAll_cons_some m now d0 tid0 data0 rest cm info hc]
      exact ih _ (holdsLive_assignByName m now cm info.name tid0 data0 w tid h)

theorem reassignAll_tokens (m now : Int) (work : List (String × String × TaskAsg))
    (cm : CollectorManager) : (reassignAll m now work cm).2.tokens = cm.tokens := by
  induction work generalizing cm with
  | nil => rfl
  | cons x rest ih =>
    obtain ⟨d0, tid0, data0⟩ := x
    cases hc : cm.choose_least_loaded_collector m now with
    | none =>
      rw [reassignAll_cons_none m now d0 tid0 data0 rest cm hc]
      exact ih cm
    | some info =>
      rw [reassignAll_cons_some m now d0 tid0 data0 rest cm info hc]
      rw [ih _]
      rfl

theorem reassignAll_dkeys (m now : Int) (work : List (String × String × TaskAsg))
    (cm : CollectorManager) :
    dkeys (reassignAll m now work cm).2.collectors = dkeys cm.collectors := by
  induction work generalizing cm with
  | nil => rfl
  | cons x rest ih =>
    obtain ⟨d0, tid0, data0⟩ := x
    cases hc : cm.choose_least_loaded_collector m now with
    | none =>
      rw [reassignAll_cons_none m now d0 tid0 data0 rest cm hc]
      exact ih cm
    | some info =>
      rw [reassignAll_cons_some m now d0 tid0 data0 rest cm info hc]
      show dkeys (reassignAll m now rest (assignByName cm info.name tid0 data0)).2.collectors
        = dkeys cm.collectors
      rw [ih _, assignByName_dkeys]

theorem not_mem_of_contains_eq_false {l : List String} {s : String}
    (h : l.contains s = false) : s ∉ l := by
  intro hmem
  have h2 : l.elem s = true := List.elem_eq_true_of_mem hmem
  rw [show l.contains s = l.elem s from rfl, h2] at h
  exact Bool.noConfusion h

theorem reassignAll_sound (m now : Int) (work : List (String × String × TaskAsg))
    (cm : CollectorManager) (hnames : namesOk cm = true)
    (hnd : (dkeys cm.collectors).Nodup) :
    (∀ t ∈ (reassignAll m now work cm).1,
       (∃ data, (t.1, t.2.1, data) ∈ work) ∧
       t.2.2 ∈ dkeys cm.collectors ∧
       HoldsLiveTask m now (reassignAll m now work cm).2 t.2.2 t.2.1) ∧
    (cm.candidates m now ≠ [] →
       ∀ e ∈ work, ∃ nw, (e.1, e.2.1, nw) ∈ (reassignAll m now work cm).1) ∧
    (cm.candidates m now = [] → (reassignAll m now work cm).1 = []) := by
  induction work generalizing cm with
  | nil =>
    refine ⟨?_, ?_, ?_⟩ <;> simp [reassignAll]
  | cons x rest ih =>
    obtain ⟨d0, tid0, data0⟩ := x
    cases hc : cm.choose_least_loaded_collector m now with
    | none =>
      have hcand : cm.candidates m now = [] := (choose_none_iff cm m now).mp hc
      rw [reassignAll_cons_none m now d0 tid0 data0 rest cm hc]
      have ih' := ih cm hnames hnd
      refine ⟨?_, ?_, ?_⟩
      · intro t ht
        obtain ⟨⟨data, hdata⟩, hkey, hhold⟩ := ih'.1 t ht
        exact ⟨⟨data, List.mem_cons_of_mem _ hdata⟩, hkey, hhold⟩
      · intro hne
        exact absurd hcand hne
      · intro _
        exact ih'.2.2 hcand
    | some info =>
      have hmem := choose_some_mem hc
      have hmem' : info ∈ cm.collectors.map Prod.snd ∧ isLiveCollector m now info = true :=
        List.mem_filter.mp (by simpa [CollectorManager.candidates] using hmem)
      obtain ⟨p0, hp0mem, hp0eq⟩ := List.mem_map.mp hmem'.1
      have hname_key : info.name = p0.1 := by
        have hall := List.all_eq_true.mp hnames p0 hp0mem
        rw [hp0eq] at hall
        simpa using hall
      have hget : dget cm.collectors info.name = some info := by
        rw [hname_key]
        have hpair : (p0.1, info) ∈ cm.collectors := by
          rw [← hp0eq]
          simpa using hp0mem
        exact dget_of_mem_nodup hpair hnd
      have hnames' : namesOk (assignByName cm info.name tid0 data0) = true :=
        assignByName_namesOk _ _ _ _ hnames
      have hnd' : (dkeys (assignByName cm info.name tid0 data0).collectors).Nodup := by
        rw [assignByName_dkeys]
        exact hnd
      have ih' := ih (assignByName cm info.name tid0 data0) hnames' hnd'
      rw [reassignAll_cons_some m now d0 tid0 data0 rest cm info hc]
      have hhold0 : HoldsLiveTask m now (assignByName cm info.name tid0 data0)
          info.name tid0 := by
        refine ⟨info.assign_task tid0 data0.sources data0.end_time, ?_, ?_, ?_⟩
        · show dget (dmodify cm.collectors info.name _) info.name = _
          rw [dget_dmodify_self, hget]
          rfl
        · rw [assign_task_isLive]
          exact hmem'.2
        · show (dget (dset info.assigned_tasks tid0 ⟨data0.sources, data0.end_time⟩)
            tid0).isSome = true
          rw [dget_dset_self]
          rfl
      have hholdfin : HoldsLiveTask m now
          (reassignAll m now rest (assignByName cm info.name tid0 data0)).2
          info.name tid0 :=
        holdsLive_reassignAll m now rest _ info.name tid0 hhold0
      have hkey0 : info.name ∈ dkeys cm.collectors := by
        rw [hname_key]
        exact List.mem_map_of_mem Prod.fst hp0mem
      refine ⟨?_, ?_, ?_⟩
      · intro t ht
        rcases List.mem_cons.mp ht with h | h
        · subst h
          exact ⟨⟨data0, List.mem_cons_self _ _⟩, hkey0, hholdfin⟩
        · obtain ⟨⟨data, hdata⟩, hkeyt, hholdt⟩ := ih'.1 t h
          refine ⟨⟨data, List.mem_cons_of_mem _ hdata⟩, ?_, hholdt⟩
          rw [assignByName_dkeys] at hkeyt
          exact hkeyt
      · intro hne e he
        rcases List.mem_cons.mp he with h | h
        · subst h
          exact ⟨info.name, List.mem_cons_self _ _⟩
        · have hne' : (assignByName cm info.name tid0 data0).candidates m now ≠ [] := by
            intro h0
            exact hne ((candidates_assignByName_nil_iff cm info.name tid0 data0 m now).mp h0)
          obtain ⟨nw, hnw⟩ := ih'.2.1 hne' e h
          exact ⟨nw, List.mem_cons_of_mem _ hnw⟩
      · intro h0
        exfalso
        have hcn := (choose_none_iff cm m now).mpr h0
        rw [hc] at hcn
        exact Option.noConfusion hcn

/-- Names of the workers `failover_dead_collectors` identifies as dead. -/
def deadNames (cm : CollectorManager) (heartbeat_timeout now : Int) : List String :=
  dkeys (cm.collectors.filter (fun p => isDeadCollector heartbeat_timeout now p.2))

theorem removeDead_collectors (cm : CollectorManager) (timeout now : Int) :
    (cm.removeDead timeout now).collectors
      = cm.collectors.filter (fun p => ! isDeadCollector timeout now p.2) := rfl

theorem removeDead_tokens (cm : CollectorManager) (timeout now : Int) :
    (cm.removeDead timeout now).tokens
      = cm.tokens.filter (fun p => ! (deadNames cm timeout now).contains p.2) := rfl

theorem failover_eq (cm : CollectorManager) (timeout m now : Int) :
    cm.failover_dead_collectors timeout m now
      = reassignAll m now
          ((cm.collectors.filter (fun p => isDeadCollector timeout now p.2)).flatMap
            (fun p => p.2.assigned_tasks.map (fun tp => (p.1, tp.1, tp.2))))
          (cm.removeDead timeout now) := rfl

/-- Concrete dead worker: heartbeat 1 (stale at now = 100, timeout 10),
holding task T for source s1. -/
def deadW1 : CollectorInfo :=
  { CollectorInfo.init "w1" "s" with
      token := some "t1"
      last_heartbeat := some 1
      assigned_tasks := [("T", ⟨["s1"], 500⟩)] }

/-- Concrete live worker: heartbeat 95 (fresh at now = 100). -/
def liveW2 : CollectorInfo :=
  { CollectorInfo.init "w2" "s" with
      token := some "t2"
      last_heartbeat := some 95 }

/-- Registry holding only the dead worker. -/
def cmOnlyDead : CollectorManager := ⟨[("w1", deadW1)], [("t1", "w1")]⟩

/-- Registry holding the dead worker and one live worker. -/
def cmDeadLive : CollectorManager :=
  ⟨[("w1", deadW1), ("w2", liveW2)], [("t1", "w1"), ("t2", "w2")]⟩

/-- C2 counterexample: in a registry whose only worker w1 is dead and holds
task T, failover removes w1 but has nobody to reassign to: the triples list
is empty, the registry ends empty, and no worker — let alone a live one —
now holds T.  The claim's unconditional "reassigns each of that worker's
outstanding task assignments to some other live worker" is false here. -/
theorem C2_counterexample :
    isDeadCollector 10 100 deadW1 = true ∧
    (cmOnlyDead.failover_dead_collectors 10 60 100).1 = [] ∧
    (cmOnlyDead.failover_dead_collectors 10 60 100).2.collectors = [] ∧
    ¬ ∃ w, HoldsLiveTask 60 100
        (cmOnlyDead.failover_dead_collectors 10 60 100).2 w "T" := by
  refine ⟨by decide, by decide, by decide, ?_⟩
  rintro ⟨w, i, hi, _, _⟩
  rw [show (cmOnlyDead.failover_dead_collectors 10 60 100).2.collectors = [] from by decide] at hi
  simp at hi

/-- C2 (amended, modelled from the spec): on a registry whose entries carry
their own key as name, with duplicate-free names, `failover_dead` removes
every worker whose last_heartbeat is older than 2 × heartbeat_timeout from
the registry and the token index; every returned (dead, task, new) triple
names a dead worker and a surviving non-dead worker that is live and now
holds the task; when at least one live worker survives the removal, every
outstanding assignment of every dead worker is reassigned (a triple is
returned for it); when none survives, nothing is reassigned and the
triples list is empty (NO_WORKERS_AVAILABLE). -/
theorem C2_failover_dead (cm : CollectorManager) (timeout m now : Int)
    (hnames : namesOk cm = true) (hnd : (dkeys cm.collectors).Nodup) :
    (∀ p ∈ cm.collectors, isDeadCollector timeout now p.2 = true →
       dget ((cm.failover_dead_collectors timeout m now).2).collectors p.1 = none ∧
       ∀ tok nm, dget ((cm.failover_dead_collectors timeout m now).2).tokens tok = some nm →
         nm ≠ p.1) ∧
    (∀ t ∈ (cm.failover_dead_collectors timeout m now).1,
       t.1 ∈ deadNames cm timeout now ∧
       t.2.2 ∉ deadNames cm timeout now ∧
       HoldsLiveTask m now (cm.failover_dead_collectors timeout m now).2 t.2.2 t.2.1) ∧
    ((cm.removeDead timeout now).candidates m now ≠ [] →
       ∀ p ∈ cm.collectors, isDeadCollector timeout now p.2 = true →
       ∀ e ∈ p.2.assigned_tasks,
         ∃ nw, (p.1, e.1, nw) ∈ (cm.failover_dead_collectors timeout m now).1) ∧
    ((cm.removeDead timeout now).candidates m now = [] →
       (cm.failover_dead_collectors timeout m now).1 = []) := by
  have hnames1 : namesOk (cm.removeDead timeout now) = true := by
    rw [show namesOk (cm.removeDead timeout now)
        = (cm.collectors.filter (fun p => ! isDeadCollector timeout now p.2)).all
          (fun p => p.2.name == p.1) from rfl]
    exact all_names_filter _ hnames
  have hnd1 : (dkeys (cm.removeDead timeout now).collectors).Nodup := by
    rw [removeDead_collectors]
    exact dkeys_filter_nodup _ hnd
  have hsound := reassignAll_sound m now
    ((cm.collectors.filter (fun p => isDeadCollector timeout now p.2)).flatMap
      (fun p => p.2.assigned_tasks.map (fun tp => (p.1, tp.1, tp.2))))
    (cm.removeDead timeout now) hnames1 hnd1
  refine ⟨?_, ?_, ?_, ?_⟩
  · -- removal from registry and token index
    intro p hp hdead
    constructor
    · rw [failover_eq, (dget_none_iff _ _), reassignAll_dkeys, removeDead_collectors]
      intro hmem
      obtain ⟨q, hq, hqkey⟩ := List.mem_map.mp hmem
      have hqf := List.mem_filter.mp hq
      have hqp : q = p := eq_of_mem_nodup_keys hnd hqf.1 hp hqkey
      rw [hqp, hdead] at hqf
      simp at hqf
    · intro tok nm hnm
      rw [failover_eq, reassignAll_tokens, removeDead_tokens] at hnm
      have hmem := List.mem_filter.mp (dget_mem hnm)
      have hnotdead : nm ∉ deadNames cm timeout now := by
        apply not_mem_of_contains_eq_false
        simpa using hmem.2
      intro heq
      apply hnotdead
      rw [heq]
      exact List.mem_map_of_mem Prod.fst (List.mem_filter.mpr ⟨hp, hdead⟩)
  · -- triples name a dead worker and a live survivor that holds the task
    intro t ht
    rw [failover_eq] at ht
    obtain ⟨⟨data, hdata⟩, hkey, hhold⟩ := hsound.1 t ht
    obtain ⟨pd, hpd, hpdmap⟩ := List.mem_flatMap.mp hdata
    obtain ⟨tp, _, htp⟩ := List.mem_map.mp hpdmap
    have hpd1 : pd.1 = t.1 := congrArg (fun x => x.1) htp
    refine ⟨?_, ?_, ?_⟩
    · rw [← hpd1]
      exact List.mem_map_of_mem Prod.fst hpd
    · rw [removeDead_collectors] at hkey
      intro hmemdead
      obtain ⟨qd, hqd, hqdkey⟩ := List.mem_map.mp hmemdead
      obtain ⟨ql, hql, hqlkey⟩ := List.mem_map.mp hkey
      have hqdf := List.mem_filter.mp hqd
      have hqlf := List.mem_filter.mp hql
      have heq : ql = qd := eq_of_mem_nodup_keys hnd hqlf.1 hqdf.1 (by rw [hqlkey, hqdkey])
      have hqlf2 := hqlf.2
      rw [heq, hqdf.2] at hqlf2
      simp at hqlf2
    · rw [failover_eq]
      exact hhold
  · -- completeness when a live worker survives removal
    intro hne p hp hdead e he
    have hwork : (p.1, e.1, e.2) ∈
        (cm.collectors.filter (fun q => isDeadCollector timeout now q.2)).flatMap
          (fun q => q.2.assigned_tasks.map (fun tp => (q.1, tp.1, tp.2))) := by
      apply List.mem_flatMap.mpr
      refine ⟨p, List.mem_filter.mpr ⟨hp, hdead⟩, ?_⟩
      have := List.mem_map_of_mem (fun tp => (p.1, tp.1, tp.2)) he
      simpa using this
    obtain ⟨nw, hnw⟩ := hsound.2.1 hne (p.1, e.1, e.2) hwork
    rw [failover_eq]
    exact ⟨nw, hnw⟩
  · -- no live survivor: nothing is reassigned
    intro h0
    rw [failover_eq]
    exact hsound.2.2 h0

theorem C2_failover_dead_witness :
    namesOk cmDeadLive = true ∧
    ∃ nw, ("w1", "T", nw) ∈ (cmDeadLive.failover_dead_collectors 10 60 100).1 :=
  ⟨by decide,
   (C2_failover_dead cmDeadLive 10 60 100 (by decide) (by decide)).2.2.1
     (by decide) ("w1", deadW1) (by decide) (by decide) ("T", ⟨["s1"], 500⟩) (by decide)⟩
